import Mathlib

/-!
Verification of the video-timestamp reconstruction logic, result ledger,
export formatting and session-controller timing of `src/main.ts`
(real-time video model demo app).

All wall-clock and video-time quantities are modelled as exact rationals
(`ℚ`); the source operates on JS numbers with the same arithmetic shape.
Each definition is a shallow embedding of the correspondingly named
function or code block of `src/main.ts`.
-/

namespace VideoDemo

/-- Structure `ResultData` of `main.ts`: the fields copied from a backend
`StreamInferenceResult` into a ledger entry. -/
structure ResultData where
  ok : Bool
  result : String
  error : Option String
  mode : String
  inference_latency_ms : Option ℚ
  total_latency_ms : Option ℚ
  finish_reason : Option String
deriving DecidableEq, Repr

/-- Structure `TrackedResult` of `main.ts`: an inference result paired with the
estimated source-video interval. -/
structure TrackedResult where
  result : ResultData
  videoStartSec : ℚ
  videoEndSec : ℚ
deriving DecidableEq, Repr

/-- JS `x || 0` applied to a nullable number: `null` and `0` are falsy and
give `0`, any other number is returned unchanged. -/
def jsOrZero : Option ℚ → ℚ
  | none => 0
  | some v => if v = 0 then 0 else v

/-- From `handleOvershootResult` line 315:
`Math.max(0, (elapsedMs - (result.total_latency_ms || 0)) / 1000)`. -/
def capturePointSec (elapsedMs : ℚ) (totalLatencyMs : Option ℚ) : ℚ :=
  max 0 ((elapsedMs - jsOrZero totalLatencyMs) / 1000)

/-- From `handleOvershootResult` lines 320-327: interval construction per
processing mode (windowed `"clip"` vs point), before duration clamping. -/
def overshootInterval (mode : String) (clipLen : ℚ) (cap : ℚ) : ℚ × ℚ :=
  if mode = "clip" then (max 0 (cap - clipLen), cap) else (cap, cap)

/-- From `handleOvershootResult` lines 329-332 (and the identical block in
`startGemini` lines 522-525): clamp both bounds with `min` against the
video duration when the duration is known (`videoDurationSec > 0`). -/
def clampToDuration (dur : ℚ) (iv : ℚ × ℚ) : ℚ × ℚ :=
  if 0 < dur then (min iv.1 dur, min iv.2 dur) else iv

/-- The full interval pipeline of `handleOvershootResult`:
capture-point estimate, mode-dependent interval, duration clamp. -/
def handleOvershootInterval (elapsedMs : ℚ) (totalLatencyMs : Option ℚ)
    (mode : String) (clipLen dur : ℚ) : ℚ × ℚ :=
  clampToDuration dur (overshootInterval mode clipLen (capturePointSec elapsedMs totalLatencyMs))

/-- From `startGemini` lines 515-520: fixed-cadence interval before duration
clamping.  `videoPosSec = Math.max(0, elapsedMs / 1000)`,
`videoStartSec = Math.max(0, videoPosSec - frameIntervalSec)`,
`videoEndSec = videoPosSec`. -/
def geminiInterval (elapsedMs frameIntervalSec : ℚ) : ℚ × ℚ :=
  (max 0 (max 0 (elapsedMs / 1000) - frameIntervalSec), max 0 (elapsedMs / 1000))

/-- The full fixed-cadence pipeline of the Gemini message handler:
interval construction followed by the duration clamp. -/
def geminiIntervalClamped (elapsedMs frameIntervalSec dur : ℚ) : ℚ × ℚ :=
  clampToDuration dur (geminiInterval elapsedMs frameIntervalSec)

/-- Claim C1: For `E ≥ 0`, `L ≥ 0` the estimator's capture point equals
`max 0 ((E - L)/1000)`; it is nonnegative for every latency value
(including a missing one, treated as `0`), and equals `(E - L)/1000`
whenever `E ≥ L`. -/
theorem capturePointSec_spec (E L : ℚ) (hE : 0 ≤ E) (hL : 0 ≤ L) :
    capturePointSec E (some L) = max 0 ((E - L) / 1000)
      ∧ (∀ lat : Option ℚ, 0 ≤ capturePointSec E lat)
      ∧ (L ≤ E → capturePointSec E (some L) = (E - L) / 1000)
      ∧ capturePointSec E none = capturePointSec E (some 0) := by
  refine ⟨?_, ?_, ?_, ?_⟩
  · simp only [capturePointSec, jsOrZero]
    rcases eq_or_ne L 0 with h | h <;> simp [h]
  · intro lat
    simp [capturePointSec]
  · intro hLE
    simp only [capturePointSec, jsOrZero]
    have h1 : 0 ≤ (E - L) / 1000 := by
      apply div_nonneg (by linarith) (by norm_num)
    rcases eq_or_ne L 0 with h | h
    · subst h
      simp only [ite_self, sub_zero]
      exact max_eq_right (by simpa using h1)
    · simp only [if_neg h]; exact max_eq_right h1
  · simp [capturePointSec, jsOrZero]

/-- Witness for C1 at `E = 10000`, `L = 2000`. -/
theorem capturePointSec_spec_witness :
    (0:ℚ) ≤ 10000 ∧ (0:ℚ) ≤ 2000 ∧
      (capturePointSec 10000 (some 2000) = max 0 ((10000 - 2000) / 1000)
        ∧ (∀ lat : Option ℚ, 0 ≤ capturePointSec 10000 lat)
        ∧ ((2000:ℚ) ≤ 10000 → capturePointSec 10000 (some 2000) = (10000 - 2000) / 1000)
        ∧ capturePointSec 10000 none = capturePointSec 10000 (some 0)) :=
  ⟨by norm_num, by norm_num,
    capturePointSec_spec 10000 2000 (by norm_num) (by norm_num)⟩

/-- Claim C2: In windowed (`"clip"`) mode the pre-clamp interval is
`(max 0 (cap - C), cap)`, and its width is `min C cap` for `C ≥ 0`,
`cap ≥ 0`. -/
theorem overshootInterval_clip_spec (C cap : ℚ) (hC : 0 ≤ C) (hcap : 0 ≤ cap) :
    overshootInterval "clip" C cap = (max 0 (cap - C), cap)
      ∧ (overshootInterval "clip" C cap).2 - (overshootInterval "clip" C cap).1
          = min C cap := by
  constructor
  · simp [overshootInterval]
  · simp only [overshootInterval, if_pos rfl]
    rcases le_total C cap with h | h
    · rw [max_eq_right (by linarith : (0:ℚ) ≤ cap - C), min_eq_left h]
      simp
    · rw [max_eq_left (by linarith : cap - C ≤ (0:ℚ)), min_eq_right h]
      simp

/-- Witness for C2 at `C = 5`, `cap = 8`. -/
theorem overshootInterval_clip_spec_witness :
    (0:ℚ) ≤ 5 ∧ (0:ℚ) ≤ 8 ∧
      (overshootInterval "clip" 5 8 = (max 0 (8 - 5), 8)
        ∧ (overshootInterval "clip" 5 8).2 - (overshootInterval "clip" 5 8).1
            = min 5 8) :=
  ⟨by norm_num, by norm_num, overshootInterval_clip_spec 5 8 (by norm_num) (by norm_num)⟩

/-- Claim C3: For `E ≥ 0` the fixed-cadence capture point is `E / 1000`
(no latency subtraction) and the pre-clamp interval is
`(max 0 (E/1000 - I), E/1000)`; in particular `E = 12000` ms with cadence
`2` s gives `(10, 12)`. -/
theorem geminiInterval_spec (E I : ℚ) (hE : 0 ≤ E) :
    (geminiInterval E I).2 = E / 1000
      ∧ geminiInterval E I = (max 0 (E / 1000 - I), E / 1000)
      ∧ geminiInterval 12000 2 = (10, 12) := by
  have hpos : (0:ℚ) ≤ E / 1000 := by positivity
  refine ⟨?_, ?_, ?_⟩
  · simp [geminiInterval, max_eq_right hpos]
  · simp [geminiInterval, max_eq_right hpos]
  · simp only [geminiInterval]
    norm_num

/-- Witness for C3 at `E = 12000`, `I = 2`. -/
theorem geminiInterval_spec_witness :
    (0:ℚ) ≤ 12000 ∧
      ((geminiInterval 12000 2).2 = 12000 / 1000
        ∧ geminiInterval 12000 2 = (max 0 (12000 / 1000 - 2), 12000 / 1000)
        ∧ geminiInterval 12000 2 = (10, 12)) :=
  ⟨by norm_num, geminiInterval_spec 12000 2 (by norm_num)⟩

/-- The duration clamp preserves nonnegativity, ordering and pointness of
an interval, bounds it by the duration when that is positive, and is the
identity otherwise. -/
theorem clampToDuration_props (dur : ℚ) (iv : ℚ × ℚ)
    (h0 : 0 ≤ iv.1) (h12 : iv.1 ≤ iv.2) :
    0 ≤ (clampToDuration dur iv).1
      ∧ (clampToDuration dur iv).1 ≤ (clampToDuration dur iv).2
      ∧ (0 < dur → (clampToDuration dur iv).1 ≤ dur ∧ (clampToDuration dur iv).2 ≤ dur)
      ∧ (dur ≤ 0 → clampToDuration dur iv = iv)
      ∧ (iv.1 = iv.2 → (clampToDuration dur iv).1 = (clampToDuration dur iv).2) := by
  by_cases hd : 0 < dur
  · simp only [clampToDuration, if_pos hd]
    refine ⟨le_min h0 hd.le, min_le_min h12 le_rfl, fun _ => ⟨min_le_right _ _, min_le_right _ _⟩,
      fun habs => absurd hd (not_lt.mpr habs), fun he => by rw [he]⟩
  · simp only [clampToDuration, if_neg hd]
    exact ⟨h0, h12, fun habs => absurd habs hd, fun _ => trivial, fun he => he⟩

/-- Claim C4: Every produced interval, in windowed, point and fixed-cadence
mode alike, satisfies `0 ≤ videoStartSec ≤ videoEndSec` (with equality in
point mode); when the duration `dur` is known (`dur > 0`) both bounds are
additionally `≤ dur`, and when it is unknown no clamping occurs. -/
theorem trackedInterval_invariant (E : ℚ) (lat : Option ℚ) (mode : String)
    (C EG IG dur : ℚ) (hC : 0 ≤ C) (hI : 0 ≤ IG) :
    (0 ≤ (handleOvershootInterval E lat mode C dur).1
      ∧ (handleOvershootInterval E lat mode C dur).1 ≤ (handleOvershootInterval E lat mode C dur).2
      ∧ (mode ≠ "clip" →
          (handleOvershootInterval E lat mode C dur).1 = (handleOvershootInterval E lat mode C dur).2)
      ∧ (0 < dur → (handleOvershootInterval E lat mode C dur).1 ≤ dur
          ∧ (handleOvershootInterval E lat mode C dur).2 ≤ dur)
      ∧ (dur ≤ 0 → handleOvershootInterval E lat mode C dur
          = overshootInterval mode C (capturePointSec E lat)))
    ∧ (0 ≤ (geminiIntervalClamped EG IG dur).1
      ∧ (geminiIntervalClamped EG IG dur).1 ≤ (geminiIntervalClamped EG IG dur).2
      ∧ (0 < dur → (geminiIntervalClamped EG IG dur).1 ≤ dur
          ∧ (geminiIntervalClamped EG IG dur).2 ≤ dur)
      ∧ (dur ≤ 0 → geminiIntervalClamped EG IG dur = geminiInterval EG IG)) := by
  have hcap : 0 ≤ capturePointSec E lat := le_max_left 0 _
  constructor
  · have h0 : 0 ≤ (overshootInterval mode C (capturePointSec E lat)).1 := by
      by_cases hm : mode = "clip"
      · simp only [overshootInterval, if_pos hm]
        exact le_max_left 0 _
      · simp only [overshootInterval, if_neg hm]
        exact hcap
    have h12 : (overshootInterval mode C (capturePointSec E lat)).1
        ≤ (overshootInterval mode C (capturePointSec E lat)).2 := by
      by_cases hm : mode = "clip"
      · simp only [overshootInterval, if_pos hm]
        exact max_le hcap (by linarith)
      · simp only [overshootInterval, if_neg hm]
        exact le_rfl
    have hpt : mode ≠ "clip" → (overshootInterval mode C (capturePointSec E lat)).1
        = (overshootInterval mode C (capturePointSec E lat)).2 := by
      intro hm
      simp only [overshootInterval, if_neg hm]
    have := clampToDuration_props dur (overshootInterval mode C (capturePointSec E lat)) h0 h12
    exact ⟨this.1, this.2.1, fun hm => this.2.2.2.2 (hpt hm), this.2.2.1, this.2.2.2.1⟩
  · have hpos : 0 ≤ max 0 (EG / 1000) := le_max_left 0 _
    have h0 : 0 ≤ (geminiInterval EG IG).1 := le_max_left 0 _
    have h12 : (geminiInterval EG IG).1 ≤ (geminiInterval EG IG).2 := by
      simp only [geminiInterval]
      exact max_le hpos (by linarith)
    have := clampToDuration_props dur (geminiInterval EG IG) h0 h12
    exact ⟨this.1, this.2.1, this.2.2.1, this.2.2.2.1⟩

/-- Witness for C4 at `E = 10000`, `L = 2000`, clip mode with `C = 5`,
`EG = 12000`, `IG = 2`, `dur = 6`. -/
theorem trackedInterval_invariant_witness :
    (0:ℚ) ≤ 5 ∧ (0:ℚ) ≤ 2 ∧
      ((0 ≤ (handleOvershootInterval 10000 (some 2000) "clip" 5 6).1
        ∧ (handleOvershootInterval 10000 (some 2000) "clip" 5 6).1
            ≤ (handleOvershootInterval 10000 (some 2000) "clip" 5 6).2
        ∧ ("clip" ≠ "clip" →
            (handleOvershootInterval 10000 (some 2000) "clip" 5 6).1
              = (handleOvershootInterval 10000 (some 2000) "clip" 5 6).2)
        ∧ ((0:ℚ) < 6 → (handleOvershootInterval 10000 (some 2000) "clip" 5 6).1 ≤ 6
            ∧ (handleOvershootInterval 10000 (some 2000) "clip" 5 6).2 ≤ 6)
        ∧ ((6:ℚ) ≤ 0 → handleOvershootInterval 10000 (some 2000) "clip" 5 6
            = overshootInterval "clip" 5 (capturePointSec 10000 (some 2000))))
      ∧ (0 ≤ (geminiIntervalClamped 12000 2 6).1
        ∧ (geminiIntervalClamped 12000 2 6).1 ≤ (geminiIntervalClamped 12000 2 6).2
        ∧ ((0:ℚ) < 6 → (geminiIntervalClamped 12000 2 6).1 ≤ 6
            ∧ (geminiIntervalClamped 12000 2 6).2 ≤ 6)
        ∧ ((6:ℚ) ≤ 0 → geminiIntervalClamped 12000 2 6 = geminiInterval 12000 2))) :=
  ⟨by norm_num, by norm_num,
    trackedInterval_invariant 10000 (some 2000) "clip" 5 12000 2 6 (by norm_num) (by norm_num)⟩

/-- JS `String.prototype.trim()` on the character list: strip leading and
trailing whitespace. -/
def trimChars (cs : List Char) : List Char :=
  ((cs.dropWhile Char.isWhitespace).reverse.dropWhile Char.isWhitespace).reverse

/-- JS `String.prototype.trim()`. -/
def jsTrim (s : String) : String :=
  String.mk (trimChars s.data)

/-- The filter predicate of `formatResultsForCopy` lines 634-639: an entry
is kept when its result is a success and its trimmed text is none of
`"--"`, `"-"`, `""`. -/
def isMeaningful (t : TrackedResult) : Bool :=
  if t.result.ok = false then false
  else if jsTrim t.result.result = "--" ∨ jsTrim t.result.result = "-"
      ∨ jsTrim t.result.result = ""
    then false
  else true

/-- The `meaningful` subsequence of a ledger (`formatResultsForCopy`
lines 634-639). -/
def meaningful (l : List TrackedResult) : List TrackedResult :=
  l.filter isMeaningful

/-- The sort comparator of `formatResultsForCopy` line 643:
`(a, b) => a.videoStartSec - b.videoStartSec`, i.e. `a` is placed no later
than `b` exactly when `a.videoStartSec ≤ b.videoStartSec`. -/
def leStart (a b : TrackedResult) : Bool :=
  decide (a.videoStartSec ≤ b.videoStartSec)

/-- From `formatResultsForCopy` line 643: the meaningful entries sorted stably
(JS `Array.prototype.sort` is stable) ascending by `videoStartSec`. -/
def chronological (l : List TrackedResult) : List TrackedResult :=
  (meaningful l).mergeSort leStart

/-- JS `String.prototype.padStart(n, c)`: prepend copies of `c` until the
length is at least `n`. -/
def padStart (s : String) (n : Nat) (c : Char) : String :=
  String.mk (List.replicate (n - s.length) c) ++ s

/-- JS truncation toward zero, used by the JS `%` operator. -/
def jsTrunc (q : ℚ) : ℤ :=
  if 0 ≤ q then ⌊q⌋ else ⌈q⌉

/-- The JS remainder operator `a % b`: `a - b * trunc(a / b)`. -/
def jsFmod (a b : ℚ) : ℚ :=
  a - b * (jsTrunc (a / b) : ℚ)

/-- Function `fmtTime` of `main.ts` lines 809-813:
`m = Math.floor(sec / 60)`, `s = Math.floor(sec % 60)`,
result `` `${m}:${s.toString().padStart(2, '0')}` ``. -/
def fmtTime (sec : ℚ) : String :=
  toString ⌊sec / 60⌋ ++ ":" ++ padStart (toString ⌊jsFmod sec 60⌋) 2 '0'

/-- One exported block (`formatResultsForCopy` lines 645-647):
`` `${fmtTime(start)}–${fmtTime(end)}\n${text.trim()}` ``. -/
def exportBlock (t : TrackedResult) : String :=
  fmtTime t.videoStartSec ++ "–" ++ fmtTime t.videoEndSec ++ "\n" ++ jsTrim t.result.result

/-- Function `formatResultsForCopy` of `main.ts` lines 633-649. -/
def formatResultsForCopy (l : List TrackedResult) : String :=
  if (meaningful l).length = 0 then ""
  else String.intercalate "\n\n" (((meaningful l).mergeSort leStart).map exportBlock)

/-- Claim C5: `meaningful` keeps exactly the entries whose result is a
success and whose trimmed text is none of `""`, `"-"`, `"--"`, and it
preserves arrival order (it is a sublist of the ledger). -/
theorem meaningful_spec (l : List TrackedResult) (t : TrackedResult) :
    (t ∈ meaningful l ↔ t ∈ l ∧ t.result.ok = true
        ∧ jsTrim t.result.result ≠ "" ∧ jsTrim t.result.result ≠ "-"
        ∧ jsTrim t.result.result ≠ "--")
      ∧ (meaningful l).Sublist l := by
  constructor
  · rw [meaningful, List.mem_filter]
    constructor
    · rintro ⟨hmem, hb⟩
      simp only [isMeaningful] at hb
      split_ifs at hb with h1 h2
      push_neg at h2
      exact ⟨hmem, by simpa using h1, h2.2.2, h2.2.1, h2.1⟩
    · rintro ⟨hmem, hok, he, h1, h2⟩
      refine ⟨hmem, ?_⟩
      simp only [isMeaningful]
      rw [if_neg (by simp [hok]), if_neg (by tauto)]
  · exact List.filter_sublist l

/-- Witness for C5: the three-entry ledger of spec scenario 5
(`[ok, "--"]`, `[ok, "hello"]`, `[fail, "x"]`) keeps exactly the middle
entry. -/
theorem meaningful_spec_witness :
    (let good : TrackedResult :=
      ⟨⟨true, "hello", none, "clip", none, none, none⟩, 1, 2⟩
    let sentinel : TrackedResult :=
      ⟨⟨true, "--", none, "clip", none, none, none⟩, 0, 1⟩
    let failed : TrackedResult :=
      ⟨⟨false, "x", some "boom", "clip", none, none, none⟩, 2, 3⟩
    (good ∈ meaningful [sentinel, good, failed] ↔
        good ∈ [sentinel, good, failed] ∧ good.result.ok = true
          ∧ jsTrim good.result.result ≠ "" ∧ jsTrim good.result.result ≠ "-"
          ∧ jsTrim good.result.result ≠ "--")
      ∧ (meaningful [sentinel, good, failed]).Sublist [sentinel, good, failed])
    ∧ (let good : TrackedResult :=
        ⟨⟨true, "hello", none, "clip", none, none, none⟩, 1, 2⟩
      let sentinel : TrackedResult :=
        ⟨⟨true, "--", none, "clip", none, none, none⟩, 0, 1⟩
      let failed : TrackedResult :=
        ⟨⟨false, "x", some "boom", "clip", none, none, none⟩, 2, 3⟩
      meaningful [sentinel, good, failed] = [good]) :=
  ⟨meaningful_spec
      [⟨⟨true, "--", none, "clip", none, none, none⟩, 0, 1⟩,
        ⟨⟨true, "hello", none, "clip", none, none, none⟩, 1, 2⟩,
        ⟨⟨false, "x", some "boom", "clip", none, none, none⟩, 2, 3⟩]
      ⟨⟨true, "hello", none, "clip", none, none, none⟩, 1, 2⟩,
    by decide⟩

/-- The comparator `leStart` is transitive. -/
theorem leStart_trans (a b c : TrackedResult) :
    leStart a b → leStart b c → leStart a c := by
  simp only [leStart, decide_eq_true_eq]
  exact le_trans

/-- The comparator `leStart` is total. -/
theorem leStart_total (a b : TrackedResult) : leStart a b || leStart b a := by
  simp only [leStart]
  rcases le_total a.videoStartSec b.videoStartSec with h | h <;> simp [h]

/-- Claim C6: `chronological` is `meaningful` stably sorted ascending by
`videoStartSec`: the output is pairwise ordered, is a permutation of
`meaningful`, entries sharing any key `k` keep their arrival order, and
re-sorting the output changes nothing (idempotence). -/
theorem chronological_spec (l : List TrackedResult) (k : ℚ) :
    (chronological l).Pairwise (fun a b => a.videoStartSec ≤ b.videoStartSec)
      ∧ List.Perm (chronological l) (meaningful l)
      ∧ (chronological l).filter (fun t => decide (t.videoStartSec = k))
          = (meaningful l).filter (fun t => decide (t.videoStartSec = k))
      ∧ (chronological l).mergeSort leStart = chronological l := by
  have htrans : ∀ a b c : TrackedResult, leStart a b → leStart b c → leStart a c :=
    leStart_trans
  have htotal : ∀ a b : TrackedResult, leStart a b || leStart b a := leStart_total
  have hsorted : (chronological l).Pairwise (fun a b => leStart a b = true) :=
    List.sorted_mergeSort htrans htotal (meaningful l)
  refine ⟨?_, ?_, ?_, ?_⟩
  · exact hsorted.imp (fun h => by simpa [leStart] using h)
  · exact List.mergeSort_perm (meaningful l) leStart
  · set p : TrackedResult → Bool := fun t => decide (t.videoStartSec = k) with hp
    have hkey : ∀ t ∈ (meaningful l).filter p, t.videoStartSec = k := by
      intro t ht
      have := (List.mem_filter.mp ht).2
      simpa [hp] using this
    have hpair : ((meaningful l).filter p).Pairwise (fun a b => leStart a b = true) := by
      apply List.pairwise_of_forall_mem_list
      intro a ha b hb
      simp only [leStart, decide_eq_true_eq]
      rw [hkey a ha, hkey b hb]
    have hsub : ((meaningful l).filter p).Sublist (chronological l) :=
      List.sublist_mergeSort htrans htotal hpair (List.filter_sublist (meaningful l))
    have hsub2 : ((meaningful l).filter p).Sublist ((chronological l).filter p) := by
      have := hsub.filter p
      rwa [List.filter_filter, (by funext t; simp [Bool.and_self] :
        (fun t => (p t && p t : Bool)) = p)] at this
    have hlen : ((meaningful l).filter p).length = ((chronological l).filter p).length :=
      ((List.mergeSort_perm (meaningful l) leStart).filter p).length_eq.symm
    exact (hsub2.eq_of_length hlen).symm
  · exact List.mergeSort_of_sorted hsorted

/-- Claim C7: The exported text is the chronological meaningful blocks
`` `${fmtTime(start)}–${fmtTime(end)}\n${text}` `` joined by a blank line,
and for `sec ≥ 0` the timestamp renders as `M:SS`: minutes are the
unpadded floor-quotient `⌊sec⌋ / 60` and seconds the floor-remainder
`⌊sec⌋ % 60` zero-padded to exactly two characters. -/
theorem formatResultsForCopy_spec (l : List TrackedResult) (sec : ℚ) (hsec : 0 ≤ sec) :
    formatResultsForCopy l = String.intercalate "\n\n" ((chronological l).map exportBlock)
      ∧ fmtTime sec = toString (⌊sec⌋.toNat / 60) ++ ":"
          ++ padStart (toString (⌊sec⌋.toNat % 60)) 2 '0'
      ∧ (padStart (toString (⌊sec⌋.toNat % 60)) 2 '0').length = 2 := by
  have hq : (0:ℚ) ≤ sec / 60 := by positivity
  have hfl : 0 ≤ ⌊sec / 60⌋ := Int.floor_nonneg.mpr hq
  have hm : ⌊sec / 60⌋ = ((⌊sec⌋.toNat / 60 : ℕ) : ℤ) := by
    have h60 : ((60 : ℕ) : ℚ) = (60 : ℚ) := by norm_num
    have hd : ⌊sec / ((60 : ℕ) : ℚ)⌋₊ = ⌊sec⌋₊ / 60 := Nat.floor_div_nat sec 60
    rw [h60] at hd
    rw [← Int.toNat_of_nonneg hfl, Int.floor_toNat, hd, ← Int.floor_toNat]
  refine ⟨?_, ?_, ?_⟩
  · by_cases h : (meaningful l).length = 0
    · have hnil : meaningful l = [] := List.length_eq_zero.mp h
      simp only [formatResultsForCopy, chronological, hnil, List.mergeSort_nil,
        List.map_nil, List.length_nil, if_pos]
      rfl
    · simp only [formatResultsForCopy, chronological, if_neg h]
  · have hs : ⌊jsFmod sec 60⌋ = ((⌊sec⌋.toNat % 60 : ℕ) : ℤ) := by
      have htr : jsTrunc (sec / 60) = ⌊sec / 60⌋ := if_pos hq
      have hrw : jsFmod sec 60 = sec - ((60 * ⌊sec / 60⌋ : ℤ) : ℚ) := by
        rw [jsFmod, htr]
        push_cast
        ring
      rw [hrw, Int.floor_sub_int]
      have hfns : 0 ≤ ⌊sec⌋ := Int.floor_nonneg.mpr hsec
      rw [hm, ← Int.toNat_of_nonneg hfns]
      omega
    rw [fmtTime, hm, hs]
    rfl
  · have hlt : ⌊sec⌋.toNat % 60 < 60 := Nat.mod_lt _ (by norm_num)
    have hlen : (toString (⌊sec⌋.toNat % 60)).length ≤ 2 := by
      have hall : ∀ j : Fin 60, ((toString j.val).length ≤ 2) := by decide
      exact hall ⟨⌊sec⌋.toNat % 60, hlt⟩
    rw [padStart, String.length_append]
    have hrep : (String.mk (List.replicate (2 - (toString (⌊sec⌋.toNat % 60)).length) '0')).length
        = 2 - (toString (⌊sec⌋.toNat % 60)).length := by
      show (List.replicate (2 - (toString (⌊sec⌋.toNat % 60)).length) '0').length
          = 2 - (toString (⌊sec⌋.toNat % 60)).length
      exact List.length_replicate _ _
    rw [hrep]
    omega

/-- Witness for C7 at the empty ledger and `sec = 125.5`
(`fmtTime` must give `2:05`). -/
theorem formatResultsForCopy_spec_witness :
    (0:ℚ) ≤ 251 / 2 ∧
      (formatResultsForCopy []
          = String.intercalate "\n\n" ((chronological []).map exportBlock)
        ∧ fmtTime (251 / 2) = toString (⌊(251 / 2 : ℚ)⌋.toNat / 60) ++ ":"
            ++ padStart (toString (⌊(251 / 2 : ℚ)⌋.toNat % 60)) 2 '0'
        ∧ (padStart (toString (⌊(251 / 2 : ℚ)⌋.toNat % 60)) 2 '0').length = 2)
      ∧ fmtTime (251 / 2) = "2:05" :=
  ⟨by norm_num, formatResultsForCopy_spec [] (251 / 2) (by norm_num), by
    have h := (formatResultsForCopy_spec [] (251 / 2) (by norm_num)).2.1
    have hf : ⌊(251 / 2 : ℚ)⌋ = 125 := by norm_num
    rw [h, hf]
    decide⟩

/-- The `SessionState` of the spec / `setStatus` argument of `main.ts`. -/
inductive Status
  | idle | running | error | done
deriving DecidableEq, Repr

/-- The engine choice, `type Engine` of `main.ts`. -/
inductive Engine
  | overshoot | gemini
deriving DecidableEq, Repr

/-- The text-bearing parts of a Gemini `serverContent` message
(lines 497-511): an optional `outputTranscription.text` and the optional
`text` of each `modelTurn` part. -/
structure GeminiServerContent where
  outputTranscriptionText : Option String
  modelTurnParts : List (Option String)
deriving DecidableEq, Repr

/-- An inbound Gemini WebSocket text message (lines 481-539). -/
inductive GeminiMsg
  | setupComplete
  | serverContent (c : GeminiServerContent)
  | other
deriving DecidableEq, Repr

/-- Text assembly of the Gemini message handler lines 498-511: start from
the transcription text (JS truthiness: an empty string contributes
nothing) and append each truthy `modelTurn` part text. -/
def geminiAssembleText (c : GeminiServerContent) : String :=
  let t0 := match c.outputTranscriptionText with
    | some t => if t = "" then "" else t
    | none => ""
  c.modelTurnParts.foldl (fun acc p => match p with
    | some t => if t = "" then acc else acc ++ t
    | none => acc) t0

/-- Ledger update of the Gemini message handler lines 513-538: an empty
assembled text appends nothing (`if (!text) return`); otherwise one entry
with `ok := true`, `error := null`, both latencies `null` and the
fixed-cadence interval is appended. -/
def geminiHandleServerContent (now startedAt frameIntervalSec dur : ℚ)
    (results : List TrackedResult) (c : GeminiServerContent) : List TrackedResult :=
  let text := geminiAssembleText c
  if text = "" then results
  else
    let iv := geminiIntervalClamped (now - startedAt) frameIntervalSec dur
    results ++ [⟨⟨true, text, none, "gemini", none, none, none⟩, iv.1, iv.2⟩]

/-- The mutable application state of `main.ts` (lines 67-86 and the
enabled/disabled flags of the controls).  `controlsLocked` stands for the
flags set together by `lockControls` (file input, config controls and
engine tabs).  `pendingTimers` are the armed, not yet fired or cleared
`setTimeout` ids; the browser can only fire a pending timer. -/
structure AppState where
  status : Status
  activeEngine : Engine
  selectedFile : Option Nat
  startBtnDisabled : Bool
  stopBtnDisabled : Bool
  controlsLocked : Bool
  trackedResults : List TrackedResult
  streamStartedAt : ℚ
  videoDurationSec : ℚ
  vision : Option Nat
  geminiWs : Option Nat
  geminiFrameTimer : Option Nat
  autoStopTimer : Option Nat
  pendingTimers : List Nat
  nextTimerId : Nat
  nextSessionId : Nat
  clipLength : ℚ
  frameIntervalSec : ℚ
deriving DecidableEq, Repr

/-- From `stopOvershoot` lines 305-310: `try { await vision.stop() } catch (_) {}`
— whether or not the backend stop call throws, the exception is swallowed
and `vision` is cleared; the outcome does not depend on `tearThrows`. -/
def stopOvershoot (tearThrows : Bool) (s : AppState) : AppState :=
  match s.vision with
  | none => s
  | some _ =>
      if tearThrows then { s with vision := none } else { s with vision := none }

/-- From `stopGeminiCleanup` lines 584-612: clear the frame `setInterval`, close
the socket (exceptions swallowed) and drop the handles. -/
def stopGeminiCleanup (s : AppState) : AppState :=
  { s with geminiFrameTimer := none, geminiWs := none }

/-- From `stopProcessing` lines 238-260: cancel the pending auto-stop timer,
tear down the active engine's session, set the final status
(`done` when `completed`, else `idle`), disable stop, unlock controls and
re-enable start when a file is selected. -/
def stopProcessing (completed tearThrows : Bool) (s : AppState) : AppState :=
  let s1 := match s.autoStopTimer with
    | some tid => { s with autoStopTimer := none, pendingTimers := s.pendingTimers.erase tid }
    | none => s
  let s2 := match s1.activeEngine with
    | Engine.overshoot => stopOvershoot tearThrows s1
    | Engine.gemini => stopGeminiCleanup s1
  { s2 with
    status := if completed then Status.done else Status.idle,
    stopBtnDisabled := true,
    controlsLocked := false,
    startBtnDisabled := s2.selectedFile.isNone }

/-- The `startBtn` click handler lines 199-231 as one atomic step.  A
click on a disabled button does not dispatch; with no selected file the
handler returns at once.  `backendOk` abstracts whether the backend
`start()` call succeeds; on failure (`catch`) `handleError` then
`resetUI` run, and no auto-stop timer is armed.  On success the auto-stop
timer is armed only when the video duration is known. -/
def startClick (now : ℚ) (backendOk : Bool) (s : AppState) : AppState :=
  if s.startBtnDisabled then s
  else if s.selectedFile.isNone then s
  else
    let s1 := { s with
      status := Status.running,
      startBtnDisabled := true,
      stopBtnDisabled := false,
      controlsLocked := true }
    if backendOk then
      let s2 := match s1.activeEngine with
        | Engine.overshoot =>
            { s1 with vision := some s1.nextSessionId, nextSessionId := s1.nextSessionId + 1, streamStartedAt := now }
        | Engine.gemini =>
            { s1 with geminiWs := some s1.nextSessionId, nextSessionId := s1.nextSessionId + 1 }
      if 0 < s2.videoDurationSec then
        { s2 with autoStopTimer := some s2.nextTimerId, pendingTimers := s2.nextTimerId :: s2.pendingTimers, nextTimerId := s2.nextTimerId + 1 }
      else s2
    else
      let s2 := match s1.activeEngine with
        | Engine.overshoot =>
            { s1 with vision := some s1.nextSessionId, nextSessionId := s1.nextSessionId + 1 }
        | Engine.gemini => s1
      { s2 with
        status := Status.idle,
        startBtnDisabled := s2.selectedFile.isNone,
        stopBtnDisabled := true,
        controlsLocked := false }

/-- The `stopBtn` click handler lines 234-236: a click on a disabled
button does not dispatch, otherwise `stopProcessing(false)` runs. -/
def stopClick (tearThrows : Bool) (s : AppState) : AppState :=
  if s.stopBtnDisabled then s else stopProcessing false tearThrows s

/-- A `setTimeout` callback firing.  Only a pending (armed, not cleared)
timer can fire; firing consumes it.  The auto-stop callback
(lines 221-225) checks that the session is still active before running
`stopProcessing(true)`. -/
def sessionActive (s : AppState) : Bool :=
  match s.activeEngine with
  | Engine.overshoot => s.vision.isSome
  | Engine.gemini => s.geminiWs.isSome

def timerFire (tid : Nat) (tearThrows : Bool) (s : AppState) : AppState :=
  if tid ∈ s.pendingTimers then
    let s1 := { s with pendingTimers := s.pendingTimers.erase tid }
    if s.autoStopTimer = some tid then
      if sessionActive s then stopProcessing true tearThrows s1 else s1
    else s1
  else s

/-- From `handleOvershootResult` lines 312-346, delivered by session `sid`: the
elapsed time and reported latency give the capture point, the mode gives
the interval, the duration clamp applies, and the entry is appended.  A
callback of a session that is no longer the active one is dropped
(the subscription dies with the session). -/
def resultArrive (sid : Nat) (now : ℚ) (r : ResultData) (s : AppState) : AppState :=
  if s.activeEngine = Engine.overshoot ∧ s.vision = some sid then
    let iv := handleOvershootInterval (now - s.streamStartedAt) r.total_latency_ms
      r.mode s.clipLength s.videoDurationSec
    { s with trackedResults := s.trackedResults ++ [⟨r, iv.1, iv.2⟩] }
  else s

/-- A Gemini WebSocket `message` event for socket `sid` (lines 477-543):
`setupComplete` starts the session clock and the frame interval;
`serverContent` runs the ledger update; messages of a closed or replaced
socket are dropped. -/
def geminiMessageArrive (sid : Nat) (now : ℚ) (m : GeminiMsg) (s : AppState) : AppState :=
  if s.geminiWs = some sid then
    match m with
    | GeminiMsg.setupComplete =>
        { s with streamStartedAt := now, geminiFrameTimer := some s.nextTimerId, nextTimerId := s.nextTimerId + 1 }
    | GeminiMsg.serverContent c =>
        let newResults := geminiHandleServerContent now s.streamStartedAt s.frameIntervalSec s.videoDurationSec s.trackedResults c
        { s with trackedResults := newResults }
    | GeminiMsg.other => s
  else s

/-- The `videoInput` change handler lines 177-196: ignored while the
input is locked (disabled); with a file it selects it and enables start. -/
def fileSelect (f : Option Nat) (s : AppState) : AppState :=
  if s.controlsLocked then s
  else match f with
    | some file => { s with selectedFile := some file, startBtnDisabled := false }
    | none => s

/-- The `loadedmetadata` listener lines 192-194: record the duration. -/
def metadataLoaded (d : ℚ) (s : AppState) : AppState :=
  { s with videoDurationSec := d }

/-- The engine-tab click handler lines 89-101: disabled tabs do not
dispatch; clicking the active tab is a no-op. -/
def engineSwitch (e : Engine) (s : AppState) : AppState :=
  if s.controlsLocked then s
  else if e = s.activeEngine then s
  else { s with activeEngine := e }

/-- From `handleError` lines 668-678 (state part): transition to `error`. -/
def errorReport (s : AppState) : AppState :=
  { s with status := Status.error }

/-- The `clearBtn` click handler lines 662-665. -/
def clearClick (s : AppState) : AppState :=
  { s with trackedResults := [] }

/-- The events of the single-threaded event loop. -/
inductive Event
  | fileSelect (f : Option Nat)
  | metadataLoaded (d : ℚ)
  | engineSwitch (e : Engine)
  | startClick (now : ℚ) (backendOk : Bool)
  | stopClick (tearThrows : Bool)
  | timerFire (tid : Nat) (tearThrows : Bool)
  | resultArrive (sid : Nat) (now : ℚ) (r : ResultData)
  | geminiMessageArrive (sid : Nat) (now : ℚ) (m : GeminiMsg)
  | errorReport
  | clearClick

/-- One dispatch of the event loop. -/
def step : Event → AppState → AppState
  | Event.fileSelect f => fileSelect f
  | Event.metadataLoaded d => metadataLoaded d
  | Event.engineSwitch e => engineSwitch e
  | Event.startClick now b => startClick now b
  | Event.stopClick b => stopClick b
  | Event.timerFire tid b => timerFire tid b
  | Event.resultArrive sid now r => resultArrive sid now r
  | Event.geminiMessageArrive sid now m => geminiMessageArrive sid now m
  | Event.errorReport => errorReport
  | Event.clearClick => clearClick

/-- The initial page state: idle, nothing selected, start disabled until a
file is chosen, no session, no timers. -/
def initState : AppState :=
  { status := Status.idle, activeEngine := Engine.overshoot, selectedFile := none,
    startBtnDisabled := true, stopBtnDisabled := true, controlsLocked := false,
    trackedResults := [], streamStartedAt := 0, videoDurationSec := 0,
    vision := none, geminiWs := none, geminiFrameTimer := none,
    autoStopTimer := none, pendingTimers := [], nextTimerId := 0,
    nextSessionId := 0, clipLength := 5, frameIntervalSec := 1 }

/-- While a session is `running`, the start button and the other controls
are disabled (so a further start request cannot dispatch). -/
def RunningLocked (s : AppState) : Prop :=
  s.status = Status.running → (s.startBtnDisabled = true ∧ s.controlsLocked = true)

/-- Claim C10: The Gemini message handler appends no entry when the
assembled text is empty, and otherwise appends exactly one entry with
`ok = true`, `error = null` and both latency fields `null`: no failed
entry can enter the ledger from this backend. -/
theorem geminiLedger_invariant (now startedAt frameIntervalSec dur : ℚ)
    (results : List TrackedResult) (c : GeminiServerContent) :
    (geminiAssembleText c = "" →
        geminiHandleServerContent now startedAt frameIntervalSec dur results c = results)
      ∧ (geminiHandleServerContent now startedAt frameIntervalSec dur results c = results
          ∨ ∃ e : TrackedResult,
              geminiHandleServerContent now startedAt frameIntervalSec dur results c
                  = results ++ [e]
                ∧ e.result.ok = true ∧ e.result.error = none
                ∧ e.result.inference_latency_ms = none
                ∧ e.result.total_latency_ms = none) := by
  constructor
  · intro h
    simp [geminiHandleServerContent, h]
  · by_cases h : geminiAssembleText c = ""
    · left
      simp [geminiHandleServerContent, h]
    · right
      refine ⟨⟨⟨true, geminiAssembleText c, none, "gemini", none, none, none⟩,
          (geminiIntervalClamped (now - startedAt) frameIntervalSec dur).1,
          (geminiIntervalClamped (now - startedAt) frameIntervalSec dur).2⟩,
        ?_, rfl, rfl, rfl, rfl⟩
      simp [geminiHandleServerContent, if_neg h]

/-- Witness for C10: a message whose only part text is empty appends
nothing; a message carrying `"a cat"` appends one success entry. -/
theorem geminiLedger_invariant_witness :
    ((geminiAssembleText ⟨none, [none, some ""]⟩ = "" →
        geminiHandleServerContent 1000 0 2 0 [] ⟨none, [none, some ""]⟩ = [])
      ∧ (geminiHandleServerContent 1000 0 2 0 [] ⟨none, [none, some ""]⟩ = []
          ∨ ∃ e : TrackedResult,
              geminiHandleServerContent 1000 0 2 0 [] ⟨none, [none, some ""]⟩ = [] ++ [e]
                ∧ e.result.ok = true ∧ e.result.error = none
                ∧ e.result.inference_latency_ms = none
                ∧ e.result.total_latency_ms = none))
      ∧ geminiAssembleText ⟨none, [none, some ""]⟩ = ""
      ∧ geminiAssembleText ⟨some "a cat", []⟩ = "a cat" :=
  ⟨geminiLedger_invariant 1000 0 2 0 [] ⟨none, [none, some ""]⟩, by decide, by decide⟩

/-- Field-level description of `stopProcessing`: final status, cleared
timer, torn-down session handle of the active engine, erased pending
timer, untouched ledger and engine. -/
theorem stopProcessing_fields (completed tearThrows : Bool) (s : AppState) :
    (stopProcessing completed tearThrows s).status
        = (if completed then Status.done else Status.idle)
      ∧ (stopProcessing completed tearThrows s).autoStopTimer = none
      ∧ (stopProcessing completed tearThrows s).stopBtnDisabled = true
      ∧ (stopProcessing completed tearThrows s).activeEngine = s.activeEngine
      ∧ (s.activeEngine = Engine.overshoot →
          (stopProcessing completed tearThrows s).vision = none)
      ∧ (s.activeEngine = Engine.gemini →
          (stopProcessing completed tearThrows s).geminiWs = none)
      ∧ (∀ tid, s.autoStopTimer = some tid →
          (stopProcessing completed tearThrows s).pendingTimers = s.pendingTimers.erase tid)
      ∧ (s.autoStopTimer = none →
          (stopProcessing completed tearThrows s).pendingTimers = s.pendingTimers)
      ∧ (stopProcessing completed tearThrows s).trackedResults = s.trackedResults := by
  rcases hat : s.autoStopTimer with _ | tid0 <;>
    rcases heng : s.activeEngine with _ | _ <;>
      rcases hvi : s.vision with _ | v0 <;>
        simp [stopProcessing, stopOvershoot, stopGeminiCleanup, hat, heng, hvi]

/-- Swallowed teardown exceptions: the result of `stopProcessing` does not
depend on whether the backend stop call throws. -/
theorem stopProcessing_tearThrows (completed : Bool) (s : AppState) :
    stopProcessing completed true s = stopProcessing completed false s := by
  rcases hat : s.autoStopTimer with _ | tid0 <;>
    rcases heng : s.activeEngine with _ | _ <;>
      rcases hvi : s.vision with _ | v0 <;>
        simp [stopProcessing, stopOvershoot, stopGeminiCleanup, hat, heng, hvi]

/-- Claim C8: Manual stop cancels the pending auto-stop timer and tears the
active backend session down; afterwards the old auto-stop timer is not
pending and firing it is a no-op (no duplicate teardown), stale result or
message deliveries of the torn-down session are dropped (no late ledger
entries), the teardown outcome is independent of a throwing backend stop
call, and the state is `idle`. -/
theorem manualStop_spec (s : AppState) (b : Bool)
    (hstop : s.stopBtnDisabled = false) (hnd : s.pendingTimers.Nodup) :
    (step (Event.stopClick b) s).status = Status.idle
      ∧ (step (Event.stopClick b) s).autoStopTimer = none
      ∧ (s.activeEngine = Engine.overshoot → (step (Event.stopClick b) s).vision = none)
      ∧ (s.activeEngine = Engine.gemini → (step (Event.stopClick b) s).geminiWs = none)
      ∧ (∀ tid, s.autoStopTimer = some tid →
          tid ∉ (step (Event.stopClick b) s).pendingTimers)
      ∧ (∀ tid b', s.autoStopTimer = some tid →
          step (Event.timerFire tid b') (step (Event.stopClick b) s)
            = step (Event.stopClick b) s)
      ∧ (∀ sid now r, s.activeEngine = Engine.overshoot →
          step (Event.resultArrive sid now r) (step (Event.stopClick b) s)
            = step (Event.stopClick b) s)
      ∧ (∀ sid now m, s.activeEngine = Engine.gemini →
          step (Event.geminiMessageArrive sid now m) (step (Event.stopClick b) s)
            = step (Event.stopClick b) s)
      ∧ step (Event.stopClick true) s = step (Event.stopClick false) s := by
  have hs' : step (Event.stopClick b) s = stopProcessing false b s := by
    simp [step, stopClick, hstop]
  have hf := stopProcessing_fields false b s
  have hnotmem : ∀ tid, s.autoStopTimer = some tid →
      tid ∉ (stopProcessing false b s).pendingTimers := by
    intro tid htid
    rw [hf.2.2.2.2.2.2.1 tid htid]
    exact hnd.not_mem_erase
  refine ⟨?_, ?_, ?_, ?_, ?_, ?_, ?_, ?_, ?_⟩
  · rw [hs']
    simpa using hf.1
  · rw [hs']
    exact hf.2.1
  · intro he
    rw [hs']
    exact hf.2.2.2.2.1 he
  · intro he
    rw [hs']
    exact hf.2.2.2.2.2.1 he
  · intro tid htid
    rw [hs']
    exact hnotmem tid htid
  · intro tid b' htid
    rw [hs']
    simp only [step, timerFire, if_neg (hnotmem tid htid)]
  · intro sid now r he
    rw [hs']
    have hv : (stopProcessing false b s).vision = none := hf.2.2.2.2.1 he
    simp only [step, resultArrive, hv]
    simp
  · intro sid now m he
    rw [hs']
    have hw : (stopProcessing false b s).geminiWs = none := hf.2.2.2.2.2.1 he
    simp only [step, geminiMessageArrive, hw]
    simp
  · have h1 : step (Event.stopClick true) s = stopProcessing false true s := by
      simp [step, stopClick, hstop]
    have h2 : step (Event.stopClick false) s = stopProcessing false false s := by
      simp [step, stopClick, hstop]
    rw [h1, h2]
    exact stopProcessing_tearThrows false s

/-- Witness for C8: a concrete running overshoot session with an armed
auto-stop timer, stopped manually. -/
theorem manualStop_spec_witness :
    (let s : AppState :=
      { status := Status.running, activeEngine := Engine.overshoot, selectedFile := some 0,
        startBtnDisabled := true, stopBtnDisabled := false, controlsLocked := true,
        trackedResults := [], streamStartedAt := 0, videoDurationSec := 10,
        vision := some 0, geminiWs := none, geminiFrameTimer := none,
        autoStopTimer := some 7, pendingTimers := [7], nextTimerId := 8,
        nextSessionId := 1, clipLength := 5, frameIntervalSec := 1 }
    s.stopBtnDisabled = false ∧ s.pendingTimers.Nodup
      ∧ ((step (Event.stopClick true) s).status = Status.idle
        ∧ (step (Event.stopClick true) s).autoStopTimer = none
        ∧ (s.activeEngine = Engine.overshoot → (step (Event.stopClick true) s).vision = none)
        ∧ (s.activeEngine = Engine.gemini → (step (Event.stopClick true) s).geminiWs = none)
        ∧ (∀ tid, s.autoStopTimer = some tid →
            tid ∉ (step (Event.stopClick true) s).pendingTimers)
        ∧ (∀ tid b', s.autoStopTimer = some tid →
            step (Event.timerFire tid b') (step (Event.stopClick true) s)
              = step (Event.stopClick true) s)
        ∧ (∀ sid now r, s.activeEngine = Engine.overshoot →
            step (Event.resultArrive sid now r) (step (Event.stopClick true) s)
              = step (Event.stopClick true) s)
        ∧ (∀ sid now m, s.activeEngine = Engine.gemini →
            step (Event.geminiMessageArrive sid now m) (step (Event.stopClick true) s)
              = step (Event.stopClick true) s)
        ∧ step (Event.stopClick true) s = step (Event.stopClick false) s)) :=
  ⟨rfl, by decide,
    manualStop_spec
      { status := Status.running, activeEngine := Engine.overshoot, selectedFile := some 0,
        startBtnDisabled := true, stopBtnDisabled := false, controlsLocked := true,
        trackedResults := [], streamStartedAt := 0, videoDurationSec := 10,
        vision := some 0, geminiWs := none, geminiFrameTimer := none,
        autoStopTimer := some 7, pendingTimers := [7], nextTimerId := 8,
        nextSessionId := 1, clipLength := 5, frameIntervalSec := 1 }
      true rfl (by decide)⟩

/-- The start click handler either leaves the state unchanged (disabled
button or no file), ends in `idle` (backend start failure), or ends with
the start button and controls locked (successful start). -/
theorem startClick_cases (now : ℚ) (b : Bool) (s : AppState) :
    startClick now b s = s
      ∨ (startClick now b s).status = Status.idle
      ∨ ((startClick now b s).startBtnDisabled = true
          ∧ (startClick now b s).controlsLocked = true) := by
  by_cases hd : s.startBtnDisabled = true
  · left
    simp [startClick, hd]
  · by_cases hf : s.selectedFile.isNone = true
    · left
      simp [startClick, hd, hf]
    · cases b
      · right; left
        rcases heng : s.activeEngine <;>
          simp [startClick, hd, hf, heng]
      · right; right
        by_cases hdur : 0 < s.videoDurationSec
        · rcases heng : s.activeEngine <;> simp [startClick, hd, hf, heng, hdur]
        · rcases heng : s.activeEngine <;> simp [startClick, hd, hf, heng, hdur]

/-- Claim C9: Start requires a selected file: with none selected the click
handler does nothing and opens no session.  While a session is running
the start button and the controls are disabled; this lock is preserved by
every event and holds initially, so a start request during a running
session does not dispatch and leaves the open session and all state
unchanged. -/
theorem startGuard_spec :
    (∀ (s : AppState) (now : ℚ) (b : Bool), s.selectedFile = none →
        step (Event.startClick now b) s = s)
      ∧ (∀ (e : Event) (s : AppState), RunningLocked s → RunningLocked (step e s))
      ∧ RunningLocked initState
      ∧ (∀ (s : AppState) (now : ℚ) (b : Bool), RunningLocked s →
          s.status = Status.running → step (Event.startClick now b) s = s) := by
  refine ⟨?_, ?_, ?_, ?_⟩
  · intro s now b hf
    by_cases hd : s.startBtnDisabled = true
    · simp [step, startClick, hd]
    · simp [step, startClick, hd, hf]
  · intro e s h
    cases e with
    | fileSelect f =>
        intro hrun
        by_cases hl : s.controlsLocked = true
        · simp only [step, fileSelect, if_pos hl] at hrun ⊢
          exact h hrun
        · rcases f with _ | f0
          · simp only [step, fileSelect, if_neg hl] at hrun ⊢
            exact h hrun
          · simp only [step, fileSelect, if_neg hl] at hrun ⊢
            exact absurd (h hrun).2 hl
    | metadataLoaded d =>
        intro hrun
        exact h hrun
    | engineSwitch e =>
        intro hrun
        simp only [step, engineSwitch] at hrun ⊢
        split_ifs at hrun ⊢ <;> exact h hrun
    | startClick now b =>
        intro hrun
        simp only [step] at hrun ⊢
        rcases startClick_cases now b s with hcs | hcs | hcs
        · rw [hcs] at hrun ⊢
          exact h hrun
        · rw [hcs] at hrun
          exact absurd hrun (by decide)
        · exact ⟨hcs.1, hcs.2⟩
    | stopClick b =>
        intro hrun
        by_cases hd : s.stopBtnDisabled = true
        · simp only [step, stopClick, if_pos hd] at hrun ⊢
          exact h hrun
        · simp only [step, stopClick, if_neg hd] at hrun ⊢
          have hst : (stopProcessing false b s).status = Status.idle := by
            simpa using (stopProcessing_fields false b s).1
          rw [hst] at hrun
          exact absurd hrun (by decide)
    | timerFire tid b =>
        intro hrun
        simp only [step, timerFire] at hrun ⊢
        by_cases hmem : tid ∈ s.pendingTimers
        · rw [if_pos hmem] at hrun ⊢
          by_cases hat : s.autoStopTimer = some tid
          · rw [if_pos hat] at hrun ⊢
            by_cases hact : sessionActive s = true
            · rw [if_pos hact] at hrun ⊢
              have hst : (stopProcessing true b
                  { s with pendingTimers := s.pendingTimers.erase tid }).status
                    = Status.done := by
                simpa using (stopProcessing_fields true b
                  { s with pendingTimers := s.pendingTimers.erase tid }).1
              rw [hst] at hrun
              exact absurd hrun (by decide)
            · rw [if_neg hact] at hrun ⊢
              exact h hrun
          · rw [if_neg hat] at hrun ⊢
            exact h hrun
        · rw [if_neg hmem] at hrun ⊢
          exact h hrun
    | resultArrive sid now r =>
        intro hrun
        by_cases hc : s.activeEngine = Engine.overshoot ∧ s.vision = some sid
        · simp only [step, resultArrive, if_pos hc] at hrun ⊢
          exact h hrun
        · simp only [step, resultArrive, if_neg hc] at hrun ⊢
          exact h hrun
    | geminiMessageArrive sid now m =>
        intro hrun
        by_cases hc : s.geminiWs = some sid
        · simp only [step, geminiMessageArrive, if_pos hc] at hrun ⊢
          cases m <;> exact h hrun
        · simp only [step, geminiMessageArrive, if_neg hc] at hrun ⊢
          exact h hrun
    | errorReport =>
        intro hrun
        exact absurd (show Status.error = Status.running from hrun) (by decide)
    | clearClick =>
        intro hrun
        exact h hrun
  · intro h
    exact absurd (show Status.idle = Status.running from h) (by decide)
  · intro s now b h hrun
    have hd := (h hrun).1
    simp [step, startClick, hd]

/-- Witness for C9: at the initial state (no file selected) a start click
changes nothing; at a concrete running, locked state a start click
changes nothing. -/
theorem startGuard_spec_witness :
    step (Event.startClick 0 true) initState = initState
      ∧ step (Event.startClick 0 true)
          { status := Status.running, activeEngine := Engine.overshoot, selectedFile := some 0,
            startBtnDisabled := true, stopBtnDisabled := false, controlsLocked := true,
            trackedResults := [], streamStartedAt := 0, videoDurationSec := 10,
            vision := some 0, geminiWs := none, geminiFrameTimer := none,
            autoStopTimer := some 7, pendingTimers := [7], nextTimerId := 8,
            nextSessionId := 1, clipLength := 5, frameIntervalSec := 1 }
        = { status := Status.running, activeEngine := Engine.overshoot, selectedFile := some 0,
            startBtnDisabled := true, stopBtnDisabled := false, controlsLocked := true,
            trackedResults := [], streamStartedAt := 0, videoDurationSec := 10,
            vision := some 0, geminiWs := none, geminiFrameTimer := none,
            autoStopTimer := some 7, pendingTimers := [7], nextTimerId := 8,
            nextSessionId := 1, clipLength := 5, frameIntervalSec := 1 } :=
  ⟨startGuard_spec.1 initState 0 true rfl,
    startGuard_spec.2.2.2
      { status := Status.running, activeEngine := Engine.overshoot, selectedFile := some 0,
        startBtnDisabled := true, stopBtnDisabled := false, controlsLocked := true,
        trackedResults := [], streamStartedAt := 0, videoDurationSec := 10,
        vision := some 0, geminiWs := none, geminiFrameTimer := none,
        autoStopTimer := some 7, pendingTimers := [7], nextTimerId := 8,
        nextSessionId := 1, clipLength := 5, frameIntervalSec := 1 }
      0 true (fun _ => ⟨rfl, rfl⟩) rfl⟩

end VideoDemo
